import Mathlib

set_option maxRecDepth 100000

/-!
Shallow embedding of the dublincore-editor repository (Go).

Source files embedded:
  * `src/dublincore/dublincore.go` — the `DublinCore` metadata record, its
    constructor `New` and its mutation helpers.
  * `src/docx/docx.go` — the DOCX container codec: `Open`, `Save`,
    `parseCoreXML`, `parseCoreXMLAlternative`, `extractDublinCore`,
    `writeCoreProperties` / `CoreProperties.ToXML`, `findFile`, `copyZipFile`.
  * `src/unnamed/part_000` (the CLI/editor glue) — `hasChanges`,
    `hasRealChanges` and the save-skipping decision of `editWithTUI`.

Modelling conventions:
  * Go byte strings are modelled as Lean `String` / `List Char` (all inputs of
    interest are ASCII, where byte indices and char indices coincide).
  * `time.Now().Format(time.RFC3339)` is modelled as an explicit `now : String`
    parameter threaded into every operation that calls `New`.
  * The Go standard library's zip reader is external to the repository; a
    successfully parsed archive is modelled as a `List ZipEntry` and a failed
    `zip.NewReader` call as `none`.
  * The Go standard library's `encoding/xml` parser is external to the
    repository; its namespace-resolved view of a well-formed document is
    modelled as `XmlDoc` (root name plus a flat list of children, which is the
    shape of every `docProps/core.xml` the code reads), and a parse failure as
    `none`.  Go's unmarshaler matches a struct field whose tag carries no
    namespace against the element's *local* name only, and checks the
    namespace too when the tag carries one; both rules are reproduced below.
-/

/-- MetadataRecord: the `DublinCore` struct of `src/dublincore/dublincore.go`.
Every field is an ordered sequence of strings; the Go zero value (all fields
nil) is the default instance `{}`.  The Go field `Type` is spelled `Type'`
because `Type` is reserved in Lean. -/
structure DublinCore where
  Title : List String := []
  Creator : List String := []
  Subject : List String := []
  Description : List String := []
  Publisher : List String := []
  Contributor : List String := []
  Date : List String := []
  Type' : List String := []
  Format : List String := []
  Identifier : List String := []
  Source : List String := []
  Language : List String := []
  Relation : List String := []
  Coverage : List String := []
  Rights : List String := []
  Keywords : List String := []
  Category : List String := []
deriving DecidableEq

/-- The DOCX MIME type used by `dublincore.New`. -/
def docxMimeType : String :=
  "application/vnd.openxmlformats-officedocument.wordprocessingml.document"

/-- Go `dublincore.New`: fresh record with `Date`, `Format` and `Category`
pre-populated.  `now` stands for `time.Now().Format(time.RFC3339)`. -/
def New (now : String) : DublinCore :=
  { Date := [now], Format := [docxMimeType], Category := ["curriculo"] }

/-- Go `(*DublinCore).SetTitle`: replaces the title with a one-element sequence. -/
def SetTitle (dc : DublinCore) (title : String) : DublinCore :=
  { dc with Title := [title] }

/-- Go `(*DublinCore).AddCreator`: appends a creator. -/
def AddCreator (dc : DublinCore) (creator : String) : DublinCore :=
  { dc with Creator := dc.Creator ++ [creator] }

/-- Go `(*DublinCore).SetDescription`: replaces the description. -/
def SetDescription (dc : DublinCore) (description : String) : DublinCore :=
  { dc with Description := [description] }

/-- Go `(*DublinCore).AddKeyword`: appends a keyword. -/
def AddKeyword (dc : DublinCore) (keyword : String) : DublinCore :=
  { dc with Keywords := dc.Keywords ++ [keyword] }

/-- Go `(*DublinCore).SetCategory`: unconditionally sets the category to
`["curriculo"]` (the spec's `enforce_category`). -/
def SetCategory (dc : DublinCore) : DublinCore :=
  { dc with Category := ["curriculo"] }

/-- The mutation operations of the record API, for interleaving statements. -/
inductive EditOp where
  | opSetTitle (s : String)
  | opAddCreator (s : String)
  | opSetDescription (s : String)
  | opAddKeyword (s : String)
  | opSetCategory
deriving DecidableEq

/-- Applies a single mutation operation. -/
def applyOp : EditOp → DublinCore → DublinCore
  | .opSetTitle s, dc => SetTitle dc s
  | .opAddCreator s, dc => AddCreator dc s
  | .opSetDescription s, dc => SetDescription dc s
  | .opAddKeyword s, dc => AddKeyword dc s
  | .opSetCategory, dc => SetCategory dc

/-- Applies a list of mutation operations left to right. -/
def applyOps (ops : List EditOp) (dc : DublinCore) : DublinCore :=
  ops.foldl (fun d o => applyOp o d) dc

/-- One member of a zip archive: entry name and (uncompressed) content.
Content bytes are modelled as a `String`. -/
structure ZipEntry where
  name : String
  content : String
deriving DecidableEq

/-- The fixed metadata entry path (`corePropertiesPath` in `docx.go`). -/
def corePropertiesPath : String := "docProps/core.xml"

/-- Go `findFile`: first archive entry with the given name, `none` for the
Go error return. -/
def findFile : List ZipEntry → String → Option ZipEntry
  | [], _ => none
  | f :: rest, n => if f.name == n then some f else findFile rest n

/-- Go `unicode.IsSpace` restricted to the ASCII range (all characters the
claims exercise): space, tab, newline, vertical tab, form feed, carriage
return. -/
def isGoSpace (c : Char) : Bool :=
  c == ' ' || c == '\t' || c == '\n' || c == Char.ofNat 11 || c == Char.ofNat 12 || c == '\r'

/-- Go `strings.TrimSpace` over char lists. -/
def trimSpace (s : List Char) : List Char :=
  ((s.dropWhile isGoSpace).reverse.dropWhile isGoSpace).reverse

/-- Go `strings.Index` over char lists: index of the first occurrence of
`pat` in `s`, `none` standing for Go's `-1`. -/
def strIndex : List Char → List Char → Option Nat
  | [], pat => if pat.isPrefixOf [] then some 0 else none
  | c :: t, pat =>
    if pat.isPrefixOf (c :: t) then some 0
    else (strIndex t pat).map (· + 1)

/-- Substring test via `strIndex` (used to state "the entry contains ..."). -/
def containsStr (s pat : String) : Bool :=
  (strIndex s.data pat.data).isSome

/-- Go `xml.EscapeText` on one character. -/
def escChar (c : Char) : List Char :=
  if c == '"' then "&#34;".data
  else if c == '\'' then "&#39;".data
  else if c == '&' then "&amp;".data
  else if c == '<' then "&lt;".data
  else if c == '>' then "&gt;".data
  else if c == '\t' then "&#x9;".data
  else if c == '\n' then "&#xA;".data
  else if c == '\r' then "&#xD;".data
  else [c]

/-- Go `xml.EscapeText` over a string. -/
def escapeText (s : String) : String :=
  String.mk (s.data.foldr (fun c acc => escChar c ++ acc) [])

/-- The XML prolog emitted by `CoreProperties.ToXML`. -/
def xmlHeader : String :=
  "<?xml version=\"1.0\" encoding=\"UTF-8\" standalone=\"yes\"?>\n"

/-- The root start tag emitted by `xml.MarshalIndent` for `CoreProperties`
with the four namespace attributes set by `ToXML`, in struct-field order. -/
def coreRootOpen : String :=
  "<cp:coreProperties xmlns:cp=\"http://schemas.openxmlformats.org/package/2006/metadata/core-properties\" xmlns:dc=\"http://purl.org/dc/elements/1.1/\" xmlns:dcterms=\"http://purl.org/dc/terms/\" xmlns:xsi=\"http://www.w3.org/2001/XMLSchema-instance\">"

/-- One indented marshalled element line per value, as `xml.MarshalIndent`
with prefix `""` and indent two spaces renders a `[]string` field. -/
def elemLines (tag : String) (values : List String) : String :=
  String.join (values.map (fun v => "  <" ++ tag ++ ">" ++ escapeText v ++ "</" ++ tag ++ ">\n"))

/-- Go `CoreProperties.ToXML` composed with the field copy done by
`writeCoreProperties`: the bytes written for the fresh `docProps/core.xml`
entry.  The `CoreProperties` struct carries only the six wire fields
(Title, Creator, Subject, Description, Keywords, Category); `Date` and
`Format` are not serialized. -/
def coreXmlFor (dc : DublinCore) : String :=
  let body := elemLines "dc:title" dc.Title ++ elemLines "dc:creator" dc.Creator ++
    elemLines "dc:subject" dc.Subject ++ elemLines "dc:description" dc.Description ++
    elemLines "cp:keywords" dc.Keywords ++ elemLines "cp:category" dc.Category
  xmlHeader ++ coreRootOpen ++ (if body == "" then "" else "\n" ++ body) ++ "</cp:coreProperties>"

/-- The DOCX container: decoded record plus the zip members of the raw file
bytes held in memory (`FileData` re-read through `zip.NewReader` in `Save`). -/
structure DOCX where
  dublinCore : DublinCore
  entries : List ZipEntry
deriving DecidableEq

/-- The entry-rewriting loop of `(*DOCX).Save`: every entry named
`docProps/core.xml` is replaced by the freshly serialized metadata
(`writeCoreProperties`), every other entry is copied verbatim
(`copyZipFile`), in the original order. -/
def saveEntries (dc : DublinCore) : List ZipEntry → List ZipEntry
  | [] => []
  | f :: rest =>
    if f.name == corePropertiesPath then
      ⟨corePropertiesPath, coreXmlFor dc⟩ :: saveEntries dc rest
    else
      f :: saveEntries dc rest

/-- Go `(*DOCX).Save`: the members of the archive written to the output path. -/
def Save (d : DOCX) : List ZipEntry :=
  saveEntries d.dublinCore d.entries

/-- Go `strings.Join` as a Lean function. -/
def goJoin (l : List String) (sep : String) : String :=
  String.intercalate sep l

/-- Go `hasChanges` from the editor glue: compares only Title, Creator, Keywords
and Description, each joined with `"|"`. -/
def hasChanges (original updated : DublinCore) : Bool :=
  if !(goJoin original.Title "|" == goJoin updated.Title "|") then true
  else if !(goJoin original.Creator "|" == goJoin updated.Creator "|") then true
  else if !(goJoin original.Keywords "|" == goJoin updated.Keywords "|") then true
  else if !(goJoin original.Description "|" == goJoin updated.Description "|") then true
  else false

/-- Go `hasRealChanges`, the duplicate helper: same four fields, joined with
`","`. -/
def hasRealChanges (original updated : DublinCore) : Bool :=
  if !(goJoin original.Title "," == goJoin updated.Title ",") then true
  else if !(goJoin original.Creator "," == goJoin updated.Creator ",") then true
  else if !(goJoin original.Keywords "," == goJoin updated.Keywords ",") then true
  else if !(goJoin original.Description "," == goJoin updated.Description ",") then true
  else false

/-- The snapshot `originalDC` taken by `editWithTUI` before running the TUI:
copies of Title, Creator, Keywords, Description and Category only. -/
def snapshotOriginal (dc : DublinCore) : DublinCore :=
  { Title := dc.Title, Creator := dc.Creator, Keywords := dc.Keywords,
    Description := dc.Description, Category := dc.Category }

/-- Outcome of one `editWithTUI` run after the TUI returns. -/
inductive EditOutcome where
  | cancelledNoSave
  | noChangesNoSave
  | saved (entries : List ZipEntry)
deriving DecidableEq

/-- The decision flow of `editWithTUI` after `ui.RunEditor` returns
`(updatedDC, cancelled)`: cancel skips the save, a false `hasChanges`
skips the save, otherwise the document is saved with the updated record. -/
def editWithTUI (doc : DOCX) (updatedDC : DublinCore) (cancelled : Bool) : EditOutcome :=
  if cancelled then .cancelledNoSave
  else if !(hasChanges (snapshotOriginal doc.dublinCore) updatedDC) then .noChangesNoSave
  else .saved (Save { doc with dublinCore := updatedDC })

deriving instance DecidableEq for Except

/-- The Dublin Core element namespace URL. -/
def dcNS : String := "http://purl.org/dc/elements/1.1/"

/-- The Dublin Core terms namespace URL. -/
def dctermsNS : String := "http://purl.org/dc/terms/"

/-- The package core-properties namespace URL (bound to the `cp` prefix). -/
def cpNS : String := "http://schemas.openxmlformats.org/package/2006/metadata/core-properties"

/-- One child element of the metadata document as Go's `encoding/xml`
decoder sees it: resolved namespace (for an undeclared prefix Go leaves the
prefix text itself as the space), local name, and character data. -/
structure XmlChild where
  space : String
  localName : String
  text : String
deriving DecidableEq

/-- A well-formed metadata document as Go's `encoding/xml` decoder sees it:
a root element with a flat list of children (the shape of every
`docProps/core.xml` the code reads). -/
structure XmlDoc where
  rootSpace : String
  rootLocal : String
  children : List XmlChild
deriving DecidableEq

/-- The bytes of a metadata entry together with `encoding/xml`'s view of
them: `parsed = none` models an `xml.Unmarshal` syntax failure, `some doc`
the namespace-resolved document. -/
structure CoreXmlData where
  raw : String
  parsed : Option XmlDoc
deriving DecidableEq

/-- Character data of all children matching a tag with no namespace in its
struct tag: Go's unmarshaler compares the *local* name only, in document
order. -/
def childTexts (doc : XmlDoc) (tag : String) : List String :=
  (doc.children.filter (fun c => c.localName == tag)).map XmlChild.text

/-- The strict-decode record of `parseCoreXML`: `dublincore.New()` with each
of the six collected field sequences installed when non-empty (the chain of
`if len(...) > 0` guards of lines 112-129 of `docx.go`; the guards touch
pairwise distinct fields, so they are rendered as one record update). -/
def corePropsRecord (doc : XmlDoc) (now : String) : DublinCore :=
  let base := New now
  { base with
    Title := if (childTexts doc "title").isEmpty then base.Title else childTexts doc "title",
    Creator := if (childTexts doc "creator").isEmpty then base.Creator else childTexts doc "creator",
    Subject := if (childTexts doc "subject").isEmpty then base.Subject else childTexts doc "subject",
    Description := if (childTexts doc "description").isEmpty then base.Description else childTexts doc "description",
    Keywords := if (childTexts doc "keywords").isEmpty then base.Keywords else childTexts doc "keywords",
    Category := if (childTexts doc "category").isEmpty then base.Category else childTexts doc "category" }

/-- The loop body of `extractField` inside `parseCoreXMLAlternative`,
reproduced verbatim from the Go source including its index arithmetic (the
next `start` is adjusted by `end + len(endTag)` without adding the previous
absolute position).  `fuel` bounds the iteration count; `xmlStr.length + 1`
iterations are more than the loop performs on every input considered here,
since each iteration consumes one `endTag` occurrence. -/
def extractFieldLoop (xmlStr startTag endTag : List Char) :
    Nat → Nat → List (List Char) → List (List Char)
  | 0, _, values => values
  | fuel + 1, start, values =>
    match strIndex (xmlStr.drop start) endTag with
    | none => values
    | some e =>
      let value := (xmlStr.drop (start + startTag.length)).take (start + e - (start + startTag.length))
      let values := values ++ [trimSpace value]
      match strIndex (xmlStr.drop (start + e + endTag.length)) startTag with
      | none => values
      | some idx => extractFieldLoop xmlStr startTag endTag fuel (idx + e + endTag.length) values

/-- Go `extractField` of `parseCoreXMLAlternative`: collects every
`<tag>...</tag>` occurrence's inner text, trimmed. -/
def extractField (xmlStr : List Char) (tag : String) : List String :=
  let startTag := ('<' :: tag.data) ++ ['>']
  let endTag := ('<' :: '/' :: tag.data) ++ ['>']
  match strIndex xmlStr startTag with
  | none => []
  | some start =>
    (extractFieldLoop xmlStr startTag endTag (xmlStr.length + 1) start []).map
      (fun cs => String.mk cs)

/-- The candidate tag spellings of `parseCoreXMLAlternative`, in source
order. -/
def possibleTags : List String :=
  ["dc:title", "title", "cp:title",
   "dc:creator", "creator", "cp:creator",
   "dc:subject", "subject", "cp:subject",
   "dc:description", "description", "cp:description",
   "cp:keywords", "keywords",
   "cp:category", "category"]

/-- The `switch` of `parseCoreXMLAlternative`: installs the extracted values
into the field the tag spelling belongs to (overwriting any earlier
assignment to the same field). -/
def assignField (tag : String) (values : List String) (dc : DublinCore) : DublinCore :=
  if tag == "dc:title" || tag == "title" || tag == "cp:title" then
    { dc with Title := values }
  else if tag == "dc:creator" || tag == "creator" || tag == "cp:creator" then
    { dc with Creator := values }
  else if tag == "dc:subject" || tag == "subject" || tag == "cp:subject" then
    { dc with Subject := values }
  else if tag == "dc:description" || tag == "description" || tag == "cp:description" then
    { dc with Description := values }
  else if tag == "cp:keywords" || tag == "keywords" then
    { dc with Keywords := values }
  else if tag == "cp:category" || tag == "category" then
    { dc with Category := values }
  else dc

/-- Go `parseCoreXMLAlternative`: substring-extraction fallback over the raw
bytes; starts from `dublincore.New()` and never fails. -/
def parseCoreXMLAlternative (raw : String) (now : String) : DublinCore :=
  possibleTags.foldl
    (fun dc tag =>
      let values := extractField raw.data tag
      if values.isEmpty then dc else assignField tag values dc)
    (New now)

/-- Go `parseCoreXML`: strict decode into the anonymous `coreProperties` struct
(Go checks the root's local name only, since the `XMLName` tag carries no
namespace), accepted when at least one of Title/Creator/Keywords/Description
is non-empty, otherwise deferring to `parseCoreXMLAlternative`.  A syntax
failure or root-name mismatch is the wrapped `XML parsing failed` error. -/
def parseCoreXML (data : CoreXmlData) (now : String) : Except String DublinCore :=
  match data.parsed with
  | none => .error "XML parsing failed"
  | some doc =>
    if doc.rootLocal == "coreProperties" then
      let dc := corePropsRecord doc now
      if !dc.Title.isEmpty || !dc.Creator.isEmpty || !dc.Keywords.isEmpty || !dc.Description.isEmpty then
        .ok dc
      else
        .ok (parseCoreXMLAlternative data.raw now)
    else
      .error "XML parsing failed"

/-- One child element consumed by `xml.Unmarshal` into the raw `DublinCore`
struct: Go assigns to the *first* struct field whose tag matches, in field
declaration order; fields whose tags carry no namespace match on the local
name, the `dcterms` fields require the namespace too.  (In particular a
`dcterms type` element is captured by the earlier `Type` field, never by
`Category`.) -/
def rawDCAddChild (dc : DublinCore) (c : XmlChild) : DublinCore :=
  if c.localName == "title" then { dc with Title := dc.Title ++ [c.text] }
  else if c.localName == "creator" then { dc with Creator := dc.Creator ++ [c.text] }
  else if c.localName == "subject" then { dc with Subject := dc.Subject ++ [c.text] }
  else if c.localName == "description" then { dc with Description := dc.Description ++ [c.text] }
  else if c.localName == "publisher" then { dc with Publisher := dc.Publisher ++ [c.text] }
  else if c.localName == "contributor" then { dc with Contributor := dc.Contributor ++ [c.text] }
  else if c.localName == "date" then { dc with Date := dc.Date ++ [c.text] }
  else if c.localName == "type" then { dc with Type' := dc.Type' ++ [c.text] }
  else if c.localName == "format" then { dc with Format := dc.Format ++ [c.text] }
  else if c.localName == "identifier" then { dc with Identifier := dc.Identifier ++ [c.text] }
  else if c.localName == "source" then { dc with Source := dc.Source ++ [c.text] }
  else if c.localName == "language" then { dc with Language := dc.Language ++ [c.text] }
  else if c.localName == "relation" then { dc with Relation := dc.Relation ++ [c.text] }
  else if c.localName == "coverage" then { dc with Coverage := dc.Coverage ++ [c.text] }
  else if c.localName == "rights" then { dc with Rights := dc.Rights ++ [c.text] }
  else if c.space == dctermsNS && c.localName == "keyword" then { dc with Keywords := dc.Keywords ++ [c.text] }
  else if c.space == dctermsNS && c.localName == "type" then { dc with Category := dc.Category ++ [c.text] }
  else dc

/-- Go `xml.Unmarshal(data, &rawDC)` into the zero-value `DublinCore` struct:
its `XMLName` tag names the root `dc` in the Dublin Core elements namespace,
so both the local name and the namespace of the root must match; `none`
models the unmarshal error on a mismatch. -/
def unmarshalRawDC (doc : XmlDoc) : Option DublinCore :=
  if doc.rootLocal == "dc" && doc.rootSpace == dcNS then
    some (doc.children.foldl rawDCAddChild {})
  else none

/-- The last-resort branch of `extractDublinCore` (lines 214-220 of
`docx.go`). -/
def rawFallback (data : CoreXmlData) : Except String DublinCore :=
  match data.parsed with
  | none => .error "XML syntax error"
  | some doc =>
    match unmarshalRawDC doc with
    | some dc => .ok dc
    | none => .error "expected element type <dc>"

/-- Go `extractDublinCore`: accepts the `parseCoreXML` result only when one of
Title/Creator/Keywords is non-empty (Description is *not* re-checked here),
otherwise falling through to the raw `DublinCore` unmarshal. -/
def extractDublinCore (data : CoreXmlData) (now : String) : Except String DublinCore :=
  match parseCoreXML data now with
  | .ok dc =>
    if !dc.Title.isEmpty || !dc.Creator.isEmpty || !dc.Keywords.isEmpty then .ok dc
    else rawFallback data
  | .error _ => rawFallback data

/-- Errors of `docx.Open`, following the spec's taxonomy: `IOError` for the
initial file read, `FormatError` for the zip-reader failure. -/
inductive OpenError where
  | IOError (msg : String)
  | FormatError (msg : String)
deriving DecidableEq

/-- Go `docx.Open` from the zip stage on: `zipResult = none` models
`zip.NewReader` rejecting the byte buffer (the buffer is not a valid zip
archive); on success the record defaults to `dublincore.New()` and is
replaced only when the metadata entry is found, read and decoded without
error — every decode failure is swallowed and leaves the default in place.
`xmlParse` is the external `encoding/xml` parser applied to the entry
bytes. -/
def Open (xmlParse : String → Option XmlDoc) (now : String)
    (zipResult : Option (List ZipEntry)) : Except OpenError DOCX :=
  match zipResult with
  | none => .error (.FormatError "failed to create zip reader")
  | some entries =>
    match findFile entries corePropertiesPath with
    | none => .ok ⟨New now, entries⟩
    | some f =>
      match extractDublinCore ⟨f.content, xmlParse f.content⟩ now with
      | .ok dc => .ok ⟨dc, entries⟩
      | .error _ => .ok ⟨New now, entries⟩

/-- The `encoding/xml` view of `coreXmlFor dc`: root `cp:coreProperties`
(local name `coreProperties` in the `cp` namespace declared by `ToXML`),
one child per serialized value in struct-field order; parsing unescapes the
escaped character data back to the original value. -/
def serializeDoc (dc : DublinCore) : XmlDoc :=
  ⟨cpNS, "coreProperties",
    dc.Title.map (fun v => ⟨dcNS, "title", v⟩) ++
    dc.Creator.map (fun v => ⟨dcNS, "creator", v⟩) ++
    dc.Subject.map (fun v => ⟨dcNS, "subject", v⟩) ++
    dc.Description.map (fun v => ⟨dcNS, "description", v⟩) ++
    dc.Keywords.map (fun v => ⟨cpNS, "keywords", v⟩) ++
    dc.Category.map (fun v => ⟨cpNS, "category", v⟩)⟩

/-! Concrete inputs used by the example-scenario and counterexample
theorems. -/

/-- The metadata entry of the spec's example scenario. -/
def rawOld : String := "<coreProperties><dc:title>Old</dc:title></coreProperties>"

/-- The `encoding/xml` view of `rawOld`: the `dc` prefix is undeclared, so
Go leaves the prefix text as the namespace; the local name is `title`. -/
def docOld : XmlDoc := ⟨"", "coreProperties", [⟨"dc", "title", "Old"⟩]⟩

/-- The external XML parser restricted to the example scenario's entry. -/
def parseExample : String → Option XmlDoc :=
  fun s => if s == rawOld then some docOld else none

/-- A three-member archive holding `rawOld` as its metadata entry. -/
def entriesExample : List ZipEntry :=
  [⟨"[Content_Types].xml", "types"⟩, ⟨corePropertiesPath, rawOld⟩, ⟨"word/document.xml", "body"⟩]

/-- The record `Open` decodes from `entriesExample` at timestamp `t1`. -/
def dcExample : DublinCore := { New "t1" with Title := ["Old"] }

/-- Record `dcExample` after `SetTitle "New Role"` and `SetCategory`. -/
def dcExampleEdited : DublinCore := SetCategory (SetTitle dcExample "New Role")

/-- The metadata bytes `Save` writes for `dcExampleEdited`. -/
def coreXmlExample : String := coreXmlFor dcExampleEdited

/-- A well-formed metadata entry using only `cp:`-prefixed tags, the title
padded with spaces so that the strict decode (which keeps character data
verbatim) and the substring fallback (which trims) disagree. -/
def rawCpOnly : String := "<cp:coreProperties><cp:title> T </cp:title><cp:creator>C</cp:creator><cp:subject>S</cp:subject><cp:description>D</cp:description><cp:keywords>K</cp:keywords></cp:coreProperties>"

/-- The `encoding/xml` view of `rawCpOnly` (undeclared `cp` prefix). -/
def docCpOnly : XmlDoc :=
  ⟨"cp", "coreProperties",
    [⟨"cp", "title", " T "⟩, ⟨"cp", "creator", "C"⟩, ⟨"cp", "subject", "S"⟩,
     ⟨"cp", "description", "D"⟩, ⟨"cp", "keywords", "K"⟩]⟩

/-- A metadata entry carrying both a `dc:`-prefixed and a `cp:`-prefixed
title, exercising the fallback's last-match-wins ordering. -/
def rawTwoTitles : String := "<coreProperties><dc:title>A</dc:title><cp:title>B</cp:title></coreProperties>"

/-- A well-formed `coreProperties` entry whose only populated field is the
description. -/
def rawDescOnly : String := "<coreProperties><description>X</description></coreProperties>"

/-- The `encoding/xml` view of `rawDescOnly`. -/
def docDescOnly : XmlDoc := ⟨"", "coreProperties", [⟨"", "description", "X"⟩]⟩

/-- A well-formed unprefixed-tag metadata entry with a title, used by the
round-trip counterexample. -/
def rawTitleOnly : String := "<coreProperties><title>Old</title></coreProperties>"

/-- The `encoding/xml` view of `rawTitleOnly`. -/
def docTitleOnly : XmlDoc := ⟨"", "coreProperties", [⟨"", "title", "Old"⟩]⟩

/-- Records differing only in `Subject`, for the change-detection claim. -/
def recSubjectX : DublinCore := { Subject := ["x"] }

/-- See `recSubjectX`. -/
def recSubjectY : DublinCore := { Subject := ["y"] }

/-- A record whose title is the single string `a|b`. -/
def recPipeJoined : DublinCore := { Title := ["a|b"] }

/-- A record whose title is the two-element sequence `a`, `b`. -/
def recPipeSplit : DublinCore := { Title := ["a", "b"] }

/-- A record whose title is the single string `a,b`. -/
def recCommaJoined : DublinCore := { Title := ["a,b"] }

/-- An archive whose metadata entry is not well-formed XML. -/
def entriesBadCore : List ZipEntry := [⟨corePropertiesPath, "notxml"⟩]

/-- An archive with no metadata entry. -/
def entriesNoCore : List ZipEntry := [⟨"word/document.xml", "d"⟩]

/-! Helper lemmas. -/

/-- Lemma: `findFile` returns nothing when no entry carries the requested name. -/
theorem findFile_eq_none (entries : List ZipEntry) (n : String)
    (h : ∀ e ∈ entries, ¬ e.name = n) : findFile entries n = none := by
  induction entries with
  | nil => rfl
  | cons f rest ih =>
    have hf : ¬ f.name = n := h f (List.mem_cons_self f rest)
    have hb : (f.name == n) = false := by simp [hf]
    simp only [findFile, hb, Bool.false_eq_true, if_false]
    exact ih fun e he => h e (List.mem_cons_of_mem f he)

/-! Claim theorems. -/

/-- C1: `Save` preserves the name sequence of the archive exactly (presence
and ordering of every entry), and every entry other than
`docProps/core.xml` is copied with byte-identical content in its original
order; only the metadata entry's bytes are rewritten. -/
theorem save_archive_frame (dc : DublinCore) (entries : List ZipEntry) :
    (Save ⟨dc, entries⟩).map ZipEntry.name = entries.map ZipEntry.name ∧
    (Save ⟨dc, entries⟩).filter (fun e => !(e.name == corePropertiesPath)) =
      entries.filter (fun e => !(e.name == corePropertiesPath)) := by
  show (saveEntries dc entries).map ZipEntry.name = _ ∧
    (saveEntries dc entries).filter _ = _
  induction entries with
  | nil => exact ⟨rfl, rfl⟩
  | cons f rest ih =>
    by_cases h : f.name = corePropertiesPath
    · have hb : (f.name == corePropertiesPath) = true := by simp [h]
      refine ⟨?_, ?_⟩
      · simp [saveEntries, hb, ih.1, h]
      · simp only [saveEntries, hb, if_true, List.filter]
        simpa using ih.2
    · have hb : (f.name == corePropertiesPath) = false := by simp [h]
      refine ⟨?_, ?_⟩
      · simp only [saveEntries, hb, Bool.false_eq_true, if_false, List.map_cons, ih.1]
      · simp only [saveEntries, hb, Bool.false_eq_true, if_false, List.filter]
        simpa using ih.2

/-- C2: the example scenario.  Opening the three-entry archive whose
metadata entry is `<coreProperties><dc:title>Old</dc:title></coreProperties>`
decodes `Title = ["Old"]`; after `SetTitle "New Role"` and `SetCategory`,
`Save` rewrites only the metadata entry, whose bytes contain
`<dc:title>New Role</dc:title>` and `<cp:category>curriculo</cp:category>`,
with the two other entries byte-identical and in place. -/
theorem open_edit_save_example :
    Open parseExample "t1" (some entriesExample) = .ok ⟨dcExample, entriesExample⟩ ∧
    dcExample.Title = ["Old"] ∧
    Save ⟨dcExampleEdited, entriesExample⟩ =
      [⟨"[Content_Types].xml", "types"⟩, ⟨corePropertiesPath, coreXmlExample⟩,
       ⟨"word/document.xml", "body"⟩] ∧
    containsStr coreXmlExample "<dc:title>New Role</dc:title>" = true ∧
    containsStr coreXmlExample "<cp:category>curriculo</cp:category>" = true := by
  refine ⟨by decide, rfl, by decide, by decide, by decide⟩

/-- C6: when the byte buffer is not a valid zip archive (`zip.NewReader`
fails), `Open` returns the zip-stage `FormatError` and no container at all,
whatever the XML parser and timestamp are. -/
theorem open_invalid_zip_error (xmlParse : String → Option XmlDoc) (now : String) :
    Open xmlParse now none = .error (.FormatError "failed to create zip reader") := rfl

/-- C9: `SetCategory` is idempotent and unconditionally wins: any positive
number of iterated calls yields `Category = ["curriculo"]`, and any
interleaving of the mutation operations followed by a final `SetCategory`
yields `Category = ["curriculo"]`. -/
theorem enforce_category_idempotent (dc : DublinCore) (n : Nat) (h : 1 ≤ n)
    (ops : List EditOp) :
    (SetCategory^[n] dc).Category = ["curriculo"] ∧
    (applyOps (ops ++ [EditOp.opSetCategory]) dc).Category = ["curriculo"] := by
  constructor
  · obtain ⟨m, rfl⟩ : ∃ m, n = m + 1 := ⟨n - 1, by omega⟩
    rw [Function.iterate_succ_apply']
    rfl
  · rw [applyOps, List.foldl_append]
    rfl

/-- Witness for C9 at a concrete record, two iterations and one
interleaving. -/
theorem enforce_category_idempotent_witness :
    1 ≤ 2 ∧
    ((SetCategory^[2] (New "t0")).Category = ["curriculo"] ∧
     (applyOps ([EditOp.opSetTitle "a", EditOp.opAddKeyword "k"] ++ [EditOp.opSetCategory])
        (New "t0")).Category = ["curriculo"]) :=
  ⟨by decide, enforce_category_idempotent (New "t0") 2 (by decide)
    [EditOp.opSetTitle "a", EditOp.opAddKeyword "k"]⟩

/-- C10: the pre-save change detection compares only Title, Creator,
Keywords and Description as joined strings (`"|"` in `hasChanges`, `","` in
`hasRealChanges`) and is insensitive to Subject and Category; records
differing only in Subject, or with titles `["a|b"]` versus `["a", "b"]`,
are reported unchanged and the edit flow skips the save. -/
theorem change_detection_fields :
    (∀ (o u : DublinCore) (s1 c1 s2 c2 : List String),
      hasChanges { o with Subject := s1, Category := c1 }
          { u with Subject := s2, Category := c2 } = hasChanges o u) ∧
    (∀ (o u : DublinCore) (s1 c1 s2 c2 : List String),
      hasRealChanges { o with Subject := s1, Category := c1 }
          { u with Subject := s2, Category := c2 } = hasRealChanges o u) ∧
    hasChanges recSubjectX recSubjectY = false ∧ ¬ recSubjectX = recSubjectY ∧
    hasChanges recPipeJoined recPipeSplit = false ∧ ¬ recPipeJoined = recPipeSplit ∧
    hasRealChanges recCommaJoined recPipeSplit = false ∧ ¬ recCommaJoined = recPipeSplit ∧
    hasChanges recCommaJoined recPipeSplit = true ∧
    editWithTUI ⟨recSubjectX, entriesNoCore⟩ recSubjectY false = .noChangesNoSave := by
  refine ⟨fun o u s1 c1 s2 c2 => rfl, fun o u s1 c1 s2 c2 => rfl, ?_⟩
  decide

/-- C4: when the metadata entry is present but every decode strategy fails,
`Open` still succeeds and the container carries the default record; the
decode error never propagates to `Open`'s caller. -/
theorem open_decode_failure_default (xmlParse : String → Option XmlDoc) (now : String)
    (entries : List ZipEntry) (f : ZipEntry) (msg : String)
    (hfind : findFile entries corePropertiesPath = some f)
    (herr : extractDublinCore ⟨f.content, xmlParse f.content⟩ now = .error msg) :
    Open xmlParse now (some entries) = .ok ⟨New now, entries⟩ := by
  simp only [Open, hfind, herr]

/-- Witness for C4: a one-entry archive whose metadata entry is not XML. -/
theorem open_decode_failure_default_witness :
    findFile entriesBadCore corePropertiesPath = some ⟨corePropertiesPath, "notxml"⟩ ∧
    extractDublinCore ⟨"notxml", (fun _ => (none : Option XmlDoc)) "notxml"⟩ "t0" =
      .error "XML syntax error" ∧
    Open (fun _ => none) "t0" (some entriesBadCore) = .ok ⟨New "t0", entriesBadCore⟩ :=
  ⟨by decide, by decide,
    open_decode_failure_default (fun _ => none) "t0" entriesBadCore
      ⟨corePropertiesPath, "notxml"⟩ "XML syntax error" (by decide) (by decide)⟩

/-- C5: opening a valid archive with no `docProps/core.xml` entry succeeds
with the default record: date set to the open-time timestamp, format the
DOCX MIME type, category `["curriculo"]`. -/
theorem open_missing_metadata_default (xmlParse : String → Option XmlDoc) (now : String)
    (entries : List ZipEntry) (h : ∀ e ∈ entries, ¬ e.name = corePropertiesPath) :
    Open xmlParse now (some entries) = .ok ⟨New now, entries⟩ ∧
    (New now).Date = [now] ∧ (New now).Format = [docxMimeType] ∧
    (New now).Category = ["curriculo"] := by
  refine ⟨?_, rfl, rfl, rfl⟩
  simp only [Open, findFile_eq_none entries corePropertiesPath h]

/-- Witness for C5: a one-entry archive without the metadata entry. -/
theorem open_missing_metadata_default_witness :
    (∀ e ∈ entriesNoCore, ¬ e.name = corePropertiesPath) ∧
    Open (fun _ => none) "t0" (some entriesNoCore) = .ok ⟨New "t0", entriesNoCore⟩ :=
  ⟨by decide, (open_missing_metadata_default (fun _ => none) "t0" entriesNoCore (by decide)).1⟩

/-- Counterexample to C7 as stated: on a well-formed `coreProperties`
document whose only populated field is the description, the decode does
*not* return a record holding that description — `extractDublinCore`
re-checks only Title/Creator/Keywords, discards the strict parse's
accepted result, falls through to the raw Dublin Core decode (which fails
on the root name) and `Open` substitutes the default record with an empty
description. -/
theorem strict_accept_description_counterexample :
    parseCoreXML ⟨rawDescOnly, some docDescOnly⟩ "t0" = .ok (corePropsRecord docDescOnly "t0") ∧
    (corePropsRecord docDescOnly "t0").Description = ["X"] ∧
    extractDublinCore ⟨rawDescOnly, some docDescOnly⟩ "t0" = .error "expected element type <dc>" ∧
    Open (fun s => if s == rawDescOnly then some docDescOnly else none) "t0"
        (some [⟨corePropertiesPath, rawDescOnly⟩]) =
      .ok ⟨New "t0", [⟨corePropertiesPath, rawDescOnly⟩]⟩ ∧
    (New "t0").Description = [] := by decide

/-- C7 amended: for every well-formed `coreProperties` document whose sole
child is a description element, the strict decode strategy (`parseCoreXML`)
does accept — its acceptance condition includes the description — and
returns that description; but the caller `extractDublinCore` re-checks only
Title/Creator/Keywords, so it discards the result and falls through to the
raw decode, which fails. -/
theorem strict_accept_description_amended (now sp csp v raw : String) :
    parseCoreXML ⟨raw, some ⟨sp, "coreProperties", [⟨csp, "description", v⟩]⟩⟩ now =
      .ok (corePropsRecord ⟨sp, "coreProperties", [⟨csp, "description", v⟩]⟩ now) ∧
    (corePropsRecord ⟨sp, "coreProperties", [⟨csp, "description", v⟩]⟩ now).Description = [v] ∧
    extractDublinCore ⟨raw, some ⟨sp, "coreProperties", [⟨csp, "description", v⟩]⟩⟩ now =
      .error "expected element type <dc>" :=
  ⟨rfl, rfl, rfl⟩

/-- Counterexample to C8 as stated: on a metadata entry using only
`cp:`-prefixed tags the decode result is *not* produced by the
substring-extraction fallback — Go's unmarshaler matches local names
regardless of prefix, so the strict decode accepts first; the two differ
observably (the strict result keeps the title's surrounding spaces which
the fallback would trim). -/
theorem fallback_mechanism_counterexample :
    extractDublinCore ⟨rawCpOnly, some docCpOnly⟩ "t0" = .ok (corePropsRecord docCpOnly "t0") ∧
    (corePropsRecord docCpOnly "t0").Title = [" T "] ∧
    (parseCoreXMLAlternative rawCpOnly "t0").Title = ["T"] ∧
    ¬ corePropsRecord docCpOnly "t0" = parseCoreXMLAlternative rawCpOnly "t0" := by decide

/-- C8 amended: on a `cp:`-only metadata entry all five primary fields are
recovered, but by the strict decode (local-name matching), not the
fallback; the fallback, applied to the same bytes, also recovers all five
fields (values trimmed), and within the fallback later-listed prefix
variants of the same field overwrite earlier ones (`cp:title` wins over
`dc:title` when both match). -/
theorem fallback_recovery_amended :
    extractDublinCore ⟨rawCpOnly, some docCpOnly⟩ "t0" = .ok (corePropsRecord docCpOnly "t0") ∧
    (corePropsRecord docCpOnly "t0").Title = [" T "] ∧
    (corePropsRecord docCpOnly "t0").Creator = ["C"] ∧
    (corePropsRecord docCpOnly "t0").Subject = ["S"] ∧
    (corePropsRecord docCpOnly "t0").Description = ["D"] ∧
    (corePropsRecord docCpOnly "t0").Keywords = ["K"] ∧
    (parseCoreXMLAlternative rawCpOnly "t0").Title = ["T"] ∧
    (parseCoreXMLAlternative rawCpOnly "t0").Creator = ["C"] ∧
    (parseCoreXMLAlternative rawCpOnly "t0").Subject = ["S"] ∧
    (parseCoreXMLAlternative rawCpOnly "t0").Description = ["D"] ∧
    (parseCoreXMLAlternative rawCpOnly "t0").Keywords = ["K"] ∧
    (parseCoreXMLAlternative rawTwoTitles "t0").Title = ["B"] := by decide

/-- Lemma: filtering a mapped list whose images all satisfy the predicate
leaves the mapped list unchanged. -/
theorem filter_map_all_true {α β : Type} (f : α → β) (p : β → Bool) (l : List α)
    (h : ∀ a, p (f a) = true) : (l.map f).filter p = l.map f := by
  rw [List.filter_map]
  congr 1
  exact List.filter_eq_self.mpr (fun a _ => h a)

/-- Lemma: filtering a mapped list whose images all fail the predicate
yields the empty list. -/
theorem filter_map_all_false {α β : Type} (f : α → β) (p : β → Bool) (l : List α)
    (h : ∀ a, p (f a) = false) : (l.map f).filter p = [] := by
  rw [List.filter_map, List.filter_eq_nil_iff.mpr (fun a _ => by simp [h a]), List.map_nil]

/-- Lemma: reading the text back out of freshly built children is the
identity. -/
theorem map_text_mk (sp nm : String) (l : List String) :
    List.map (XmlChild.text ∘ fun v => XmlChild.mk sp nm v) l = l := by
  induction l with
  | nil => rfl
  | cons a t ih =>
    simp only [List.map_cons, ih]
    rfl

/-- Lemma: the serialized document's `title` children carry exactly the
record's title sequence. -/
theorem childTexts_serializeDoc_title (dc : DublinCore) :
    childTexts (serializeDoc dc) "title" = dc.Title := by
  unfold childTexts serializeDoc
  simp only [List.filter_append]
  rw [filter_map_all_true (fun v => XmlChild.mk dcNS "title" v) _ dc.Title (fun _ => rfl),
      filter_map_all_false (fun v => XmlChild.mk dcNS "creator" v) _ dc.Creator (fun _ => rfl),
      filter_map_all_false (fun v => XmlChild.mk dcNS "subject" v) _ dc.Subject (fun _ => rfl),
      filter_map_all_false (fun v => XmlChild.mk dcNS "description" v) _ dc.Description (fun _ => rfl),
      filter_map_all_false (fun v => XmlChild.mk cpNS "keywords" v) _ dc.Keywords (fun _ => rfl),
      filter_map_all_false (fun v => XmlChild.mk cpNS "category" v) _ dc.Category (fun _ => rfl)]
  simp [map_text_mk]

/-- Lemma: the serialized document's `creator` children carry exactly the
record's creator sequence. -/
theorem childTexts_serializeDoc_creator (dc : DublinCore) :
    childTexts (serializeDoc dc) "creator" = dc.Creator := by
  unfold childTexts serializeDoc
  simp only [List.filter_append]
  rw [filter_map_all_false (fun v => XmlChild.mk dcNS "title" v) _ dc.Title (fun _ => rfl),
      filter_map_all_true (fun v => XmlChild.mk dcNS "creator" v) _ dc.Creator (fun _ => rfl),
      filter_map_all_false (fun v => XmlChild.mk dcNS "subject" v) _ dc.Subject (fun _ => rfl),
      filter_map_all_false (fun v => XmlChild.mk dcNS "description" v) _ dc.Description (fun _ => rfl),
      filter_map_all_false (fun v => XmlChild.mk cpNS "keywords" v) _ dc.Keywords (fun _ => rfl),
      filter_map_all_false (fun v => XmlChild.mk cpNS "category" v) _ dc.Category (fun _ => rfl)]
  simp [map_text_mk]

/-- Lemma: the serialized document's `subject` children carry exactly the
record's subject sequence. -/
theorem childTexts_serializeDoc_subject (dc : DublinCore) :
    childTexts (serializeDoc dc) "subject" = dc.Subject := by
  unfold childTexts serializeDoc
  simp only [List.filter_append]
  rw [filter_map_all_false (fun v => XmlChild.mk dcNS "title" v) _ dc.Title (fun _ => rfl),
      filter_map_all_false (fun v => XmlChild.mk dcNS "creator" v) _ dc.Creator (fun _ => rfl),
      filter_map_all_true (fun v => XmlChild.mk dcNS "subject" v) _ dc.Subject (fun _ => rfl),
      filter_map_all_false (fun v => XmlChild.mk dcNS "description" v) _ dc.Description (fun _ => rfl),
      filter_map_all_false (fun v => XmlChild.mk cpNS "keywords" v) _ dc.Keywords (fun _ => rfl),
      filter_map_all_false (fun v => XmlChild.mk cpNS "category" v) _ dc.Category (fun _ => rfl)]
  simp [map_text_mk]

/-- Lemma: the serialized document's `description` children carry exactly
the record's description sequence. -/
theorem childTexts_serializeDoc_description (dc : DublinCore) :
    childTexts (serializeDoc dc) "description" = dc.Description := by
  unfold childTexts serializeDoc
  simp only [List.filter_append]
  rw [filter_map_all_false (fun v => XmlChild.mk dcNS "title" v) _ dc.Title (fun _ => rfl),
      filter_map_all_false (fun v => XmlChild.mk dcNS "creator" v) _ dc.Creator (fun _ => rfl),
      filter_map_all_false (fun v => XmlChild.mk dcNS "subject" v) _ dc.Subject (fun _ => rfl),
      filter_map_all_true (fun v => XmlChild.mk dcNS "description" v) _ dc.Description (fun _ => rfl),
      filter_map_all_false (fun v => XmlChild.mk cpNS "keywords" v) _ dc.Keywords (fun _ => rfl),
      filter_map_all_false (fun v => XmlChild.mk cpNS "category" v) _ dc.Category (fun _ => rfl)]
  simp [map_text_mk]

/-- Lemma: the serialized document's `keywords` children carry exactly the
record's keywords sequence. -/
theorem childTexts_serializeDoc_keywords (dc : DublinCore) :
    childTexts (serializeDoc dc) "keywords" = dc.Keywords := by
  unfold childTexts serializeDoc
  simp only [List.filter_append]
  rw [filter_map_all_false (fun v => XmlChild.mk dcNS "title" v) _ dc.Title (fun _ => rfl),
      filter_map_all_false (fun v => XmlChild.mk dcNS "creator" v) _ dc.Creator (fun _ => rfl),
      filter_map_all_false (fun v => XmlChild.mk dcNS "subject" v) _ dc.Subject (fun _ => rfl),
      filter_map_all_false (fun v => XmlChild.mk dcNS "description" v) _ dc.Description (fun _ => rfl),
      filter_map_all_true (fun v => XmlChild.mk cpNS "keywords" v) _ dc.Keywords (fun _ => rfl),
      filter_map_all_false (fun v => XmlChild.mk cpNS "category" v) _ dc.Category (fun _ => rfl)]
  simp [map_text_mk]

/-- Lemma: the serialized document's `category` children carry exactly the
record's category sequence. -/
theorem childTexts_serializeDoc_category (dc : DublinCore) :
    childTexts (serializeDoc dc) "category" = dc.Category := by
  unfold childTexts serializeDoc
  simp only [List.filter_append]
  rw [filter_map_all_false (fun v => XmlChild.mk dcNS "title" v) _ dc.Title (fun _ => rfl),
      filter_map_all_false (fun v => XmlChild.mk dcNS "creator" v) _ dc.Creator (fun _ => rfl),
      filter_map_all_false (fun v => XmlChild.mk dcNS "subject" v) _ dc.Subject (fun _ => rfl),
      filter_map_all_false (fun v => XmlChild.mk dcNS "description" v) _ dc.Description (fun _ => rfl),
      filter_map_all_false (fun v => XmlChild.mk cpNS "keywords" v) _ dc.Keywords (fun _ => rfl),
      filter_map_all_true (fun v => XmlChild.mk cpNS "category" v) _ dc.Category (fun _ => rfl)]
  simp [map_text_mk]

/-- Lemma: the strict-decode record's title is the collected `title`
character data (the default is also empty when nothing was collected). -/
theorem corePropsRecord_Title (doc : XmlDoc) (now : String) :
    (corePropsRecord doc now).Title = childTexts doc "title" := by
  unfold corePropsRecord
  cases h : (childTexts doc "title").isEmpty
  · simp [h]
  · simp [h, List.isEmpty_iff.mp h, New]

/-- Lemma: the strict-decode record's category is the collected `category`
data when present, the `curriculo` default otherwise. -/
theorem corePropsRecord_Category (doc : XmlDoc) (now : String) :
    (corePropsRecord doc now).Category =
      if (childTexts doc "category").isEmpty then ["curriculo"] else childTexts doc "category" := rfl

/-- Lemma: the strict decode never touches the date default. -/
theorem corePropsRecord_Date (doc : XmlDoc) (now : String) :
    (corePropsRecord doc now).Date = [now] := rfl

/-- Lemma: the strict decode never touches the format default. -/
theorem corePropsRecord_Format (doc : XmlDoc) (now : String) :
    (corePropsRecord doc now).Format = [docxMimeType] := rfl

/-- Lemma: the strict-decode record's creator is the collected `creator`
character data. -/
theorem corePropsRecord_Creator (doc : XmlDoc) (now : String) :
    (corePropsRecord doc now).Creator = childTexts doc "creator" := by
  unfold corePropsRecord
  cases h : (childTexts doc "creator").isEmpty
  · simp [h]
  · simp [h, List.isEmpty_iff.mp h, New]

/-- Lemma: the strict-decode record's subject is the collected `subject`
character data. -/
theorem corePropsRecord_Subject (doc : XmlDoc) (now : String) :
    (corePropsRecord doc now).Subject = childTexts doc "subject" := by
  unfold corePropsRecord
  cases h : (childTexts doc "subject").isEmpty
  · simp [h]
  · simp [h, List.isEmpty_iff.mp h, New]

/-- Lemma: the strict-decode record's description is the collected
`description` character data. -/
theorem corePropsRecord_Description (doc : XmlDoc) (now : String) :
    (corePropsRecord doc now).Description = childTexts doc "description" := by
  unfold corePropsRecord
  cases h : (childTexts doc "description").isEmpty
  · simp [h]
  · simp [h, List.isEmpty_iff.mp h, New]

/-- Lemma: the strict-decode record's keywords are the collected `keywords`
character data. -/
theorem corePropsRecord_Keywords (doc : XmlDoc) (now : String) :
    (corePropsRecord doc now).Keywords = childTexts doc "keywords" := by
  unfold corePropsRecord
  cases h : (childTexts doc "keywords").isEmpty
  · simp [h]
  · simp [h, List.isEmpty_iff.mp h, New]

/-- Lemma: the strict-decode record's category is never empty. -/
theorem corePropsRecord_Category_ne (doc : XmlDoc) (now : String) :
    ¬ (corePropsRecord doc now).Category = [] := by
  rw [corePropsRecord_Category]
  cases hl : childTexts doc "category" with
  | nil => simp
  | cons a t => simp

/-- Lemma: a non-nil list is not `isEmpty`. -/
theorem not_isEmpty_of_ne {l : List String} (h : ¬ l = []) : l.isEmpty = false := by
  cases l with
  | nil => exact absurd rfl h
  | cons a t => rfl

/-- Lemma: on a well-formed `coreProperties` document with a usable field
(title, creator or keywords non-empty), `extractDublinCore` accepts the
strict decode's record. -/
theorem extract_strict_ok (raw now : String) (doc : XmlDoc)
    (hroot : doc.rootLocal = "coreProperties")
    (husable : ¬ childTexts doc "title" = [] ∨ ¬ childTexts doc "creator" = [] ∨
      ¬ childTexts doc "keywords" = []) :
    extractDublinCore ⟨raw, some doc⟩ now = .ok (corePropsRecord doc now) := by
  have hb : (doc.rootLocal == "coreProperties") = true := by simp [hroot]
  have ht := corePropsRecord_Title doc now
  have hc := corePropsRecord_Creator doc now
  have hk := corePropsRecord_Keywords doc now
  have h4 : (!(corePropsRecord doc now).Title.isEmpty ||
      !(corePropsRecord doc now).Creator.isEmpty ||
      !(corePropsRecord doc now).Keywords.isEmpty ||
      !(corePropsRecord doc now).Description.isEmpty) = true := by
    rcases husable with h | h | h
    · simp [ht, not_isEmpty_of_ne h]
    · simp [hc, not_isEmpty_of_ne h]
    · simp [hk, not_isEmpty_of_ne h]
  have h3 : (!(corePropsRecord doc now).Title.isEmpty ||
      !(corePropsRecord doc now).Creator.isEmpty ||
      !(corePropsRecord doc now).Keywords.isEmpty) = true := by
    rcases husable with h | h | h
    · simp [ht, not_isEmpty_of_ne h]
    · simp [hc, not_isEmpty_of_ne h]
    · simp [hk, not_isEmpty_of_ne h]
  have hparse : parseCoreXML ⟨raw, some doc⟩ now = .ok (corePropsRecord doc now) := by
    simp only [parseCoreXML, hb, if_true, h4]
  simp only [extractDublinCore, hparse, h3, if_true]

/-- C3 amended: for every record obtained through the accepted strict decode
of a well-formed `coreProperties` document, serializing and re-decoding
preserves all six wire fields (Title, Creator, Subject, Description,
Keywords, Category) exactly, in order and content; `Format` is preserved
too (re-created by defaulting to the same constant), but `Date` is not
serialized at all — the re-decoded date is the second decode's timestamp,
so the date round-trips only when the two timestamps coincide. -/
theorem roundtrip_wire_fields (now1 now2 raw : String) (doc : XmlDoc)
    (hroot : doc.rootLocal = "coreProperties")
    (husable : ¬ childTexts doc "title" = [] ∨ ¬ childTexts doc "creator" = [] ∨
      ¬ childTexts doc "keywords" = []) :
    ∃ x x2 : DublinCore,
      extractDublinCore ⟨raw, some doc⟩ now1 = .ok x ∧
      extractDublinCore ⟨coreXmlFor x, some (serializeDoc x)⟩ now2 = .ok x2 ∧
      x2.Title = x.Title ∧ x2.Creator = x.Creator ∧ x2.Subject = x.Subject ∧
      x2.Description = x.Description ∧ x2.Keywords = x.Keywords ∧
      x2.Category = x.Category ∧ x2.Format = x.Format ∧
      x.Date = [now1] ∧ x2.Date = [now2] ∧ (now2 = now1 → x2.Date = x.Date) := by
  set x := corePropsRecord doc now1 with hx
  have hne : ¬ x.Category = [] := corePropsRecord_Category_ne doc now1
  have husable2 : ¬ childTexts (serializeDoc x) "title" = [] ∨
      ¬ childTexts (serializeDoc x) "creator" = [] ∨
      ¬ childTexts (serializeDoc x) "keywords" = [] := by
    rcases husable with h | h | h
    · exact Or.inl (by rw [childTexts_serializeDoc_title, hx, corePropsRecord_Title]; exact h)
    · exact Or.inr (Or.inl (by
        rw [childTexts_serializeDoc_creator, hx, corePropsRecord_Creator]; exact h))
    · exact Or.inr (Or.inr (by
        rw [childTexts_serializeDoc_keywords, hx, corePropsRecord_Keywords]; exact h))
  refine ⟨x, corePropsRecord (serializeDoc x) now2,
    extract_strict_ok raw now1 doc hroot husable,
    extract_strict_ok (coreXmlFor x) now2 (serializeDoc x) rfl husable2,
    ?_, ?_, ?_, ?_, ?_, ?_, ?_, ?_, ?_, ?_⟩
  · rw [corePropsRecord_Title, childTexts_serializeDoc_title]
  · rw [corePropsRecord_Creator, childTexts_serializeDoc_creator]
  · rw [corePropsRecord_Subject, childTexts_serializeDoc_subject]
  · rw [corePropsRecord_Description, childTexts_serializeDoc_description]
  · rw [corePropsRecord_Keywords, childTexts_serializeDoc_keywords]
  · rw [corePropsRecord_Category, childTexts_serializeDoc_category]
    simp [not_isEmpty_of_ne hne]
  · rw [corePropsRecord_Format, hx, corePropsRecord_Format]
  · rw [hx, corePropsRecord_Date]
  · rw [corePropsRecord_Date]
  · intro h
    rw [corePropsRecord_Date, hx, corePropsRecord_Date, h]

/-- Witness for C3 amended at the concrete unprefixed title-only document
and two distinct timestamps. -/
theorem roundtrip_wire_fields_witness :
    (docTitleOnly.rootLocal = "coreProperties" ∧
     (¬ childTexts docTitleOnly "title" = [] ∨ ¬ childTexts docTitleOnly "creator" = [] ∨
      ¬ childTexts docTitleOnly "keywords" = [])) ∧
    (∃ x x2 : DublinCore,
      extractDublinCore ⟨rawTitleOnly, some docTitleOnly⟩ "t1" = .ok x ∧
      extractDublinCore ⟨coreXmlFor x, some (serializeDoc x)⟩ "t2" = .ok x2 ∧
      x2.Title = x.Title ∧ x2.Creator = x.Creator ∧ x2.Subject = x.Subject ∧
      x2.Description = x.Description ∧ x2.Keywords = x.Keywords ∧
      x2.Category = x.Category ∧ x2.Format = x.Format ∧
      x.Date = ["t1"] ∧ x2.Date = ["t2"] ∧ ("t2" = "t1" → x2.Date = x.Date)) :=
  ⟨⟨rfl, Or.inl (by decide)⟩,
    roundtrip_wire_fields "t1" "t2" rawTitleOnly docTitleOnly rfl (Or.inl (by decide))⟩

/-- Counterexample to C3 as stated: the record decoded from the unprefixed
title-only document at one timestamp has a non-empty `Date`, yet decoding
its serialization at a later timestamp yields a different `Date` — a
non-empty field's value sequence is not preserved by the round-trip. -/
theorem roundtrip_date_counterexample :
    extractDublinCore ⟨rawTitleOnly, some docTitleOnly⟩ "2020-01-01T00:00:00Z" =
      .ok (corePropsRecord docTitleOnly "2020-01-01T00:00:00Z") ∧
    ¬ (corePropsRecord docTitleOnly "2020-01-01T00:00:00Z").Date = [] ∧
    extractDublinCore
        ⟨coreXmlFor (corePropsRecord docTitleOnly "2020-01-01T00:00:00Z"),
         some (serializeDoc (corePropsRecord docTitleOnly "2020-01-01T00:00:00Z"))⟩
        "2021-06-30T12:00:00Z" =
      .ok (corePropsRecord (serializeDoc (corePropsRecord docTitleOnly "2020-01-01T00:00:00Z"))
        "2021-06-30T12:00:00Z") ∧
    ¬ (corePropsRecord (serializeDoc (corePropsRecord docTitleOnly "2020-01-01T00:00:00Z"))
        "2021-06-30T12:00:00Z").Date =
      (corePropsRecord docTitleOnly "2020-01-01T00:00:00Z").Date := by decide
